import Mathlib

/-!
# Verification of `glue/core/subset_group.py`

Shallow embedding of the `SubsetGroup` / `GroupedSubset` state-synchronization
module.  Python objects are modelled as records; object identity (`is`) is
modelled by a numeric `id` field that allocation keeps unique; the mutable
`SubsetState` objects are modelled by a small heap (`World`) of numbered cells;
hub notifications and external calls are modelled as an explicit event trace.
-/

/-- A visual style object (`VisualAttributes` from `glue.core.visual`, a class
outside this module).  Its colour/alpha/markersize internals are irrelevant to
the properties below, so it is modelled as an opaque identity: two styles are
the same object/value iff their `vid` agrees. -/
structure VisualAttributes where
  vid : Nat
deriving DecidableEq, Repr

/-- A `GroupedSubset`: one member of a `SubsetGroup`.  It stores only what the
Python instance stores: its identity (`id`, modelling Python object identity),
the dataset it is bound to (`data`, the dataset's identity, so Python's
`s.data is d` is `s.data = d`), and the member-local style override
(`_style_override`, `None` initially).  `subset_state` and `label` are *not*
fields: in the source they are `Pointer` delegations to the owning group. -/
structure GroupedSubset where
  id : Nat
  data : Nat
  _style_override : Option VisualAttributes
deriving DecidableEq, Repr

/-- The state of a `SubsetGroup`: the member list `subsets`, the shared
selection state (`subset_state`, a reference into the `World` heap of
`SubsetState` objects), the shared `label`, the shared `style`
(the `_style` slot behind the `style` property), and a dictionary
`extra` for assignments to any other attribute name. -/
structure SubsetGroup where
  subsets : List GroupedSubset
  subset_state : Nat
  label : Option String
  style : VisualAttributes
  extra : List (String × Nat)
deriving DecidableEq, Repr

/-- An item passed to `SubsetGroup.broadcast`: either an attribute name
(a string) or a `VisualAttributes` instance (the `isinstance` branch). -/
inductive BItem where
  | attr (name : String)
  | styleObj (v : VisualAttributes)
deriving DecidableEq, Repr

/-- Observable effects of the module: a member forwarding a change
notification (`s.broadcast(item)` on a `GroupedSubset`), a member being
appended to the group's list, and a call to a dataset's `add_subset`. -/
inductive Event where
  | memberNotify (memberId : Nat) (item : BItem)
  | append (m : GroupedSubset)
  | addSubsetCall (dataId : Nat) (memberId : Nat)
deriving DecidableEq, Repr

/-- `GroupedSubset.style` getter: `self._style_override or self.group.style`
(an override object is truthy, so this is: the override if set, else the
group's shared style). -/
def GroupedSubset.style (g : SubsetGroup) (s : GroupedSubset) : VisualAttributes :=
  s._style_override.getD g.style

/-- `GroupedSubset.style` setter: `self._style_override = value`. -/
def GroupedSubset.set_style (s : GroupedSubset) (v : VisualAttributes) : GroupedSubset :=
  { s with _style_override := some v }

/-- `GroupedSubset.clear_override_style`: if an override is set, drop it and
broadcast a `'style'` change notification; otherwise do nothing. -/
def GroupedSubset.clear_override_style (s : GroupedSubset) :
    GroupedSubset × List Event :=
  match s._style_override with
  | some _ => ({ s with _style_override := none },
               [Event.memberNotify s.id (BItem.attr "style")])
  | none => (s, [])

/-- `GroupedSubset.__eq__`: `other is self`, i.e. object identity.  With the
allocation invariant that distinct instances carry distinct `id`s, identity is
`id` equality. -/
def GroupedSubset.beq (a b : GroupedSubset) : Bool :=
  a.id == b.id

/-- `GroupedSubset(data, group)` construction: a fresh instance bound to
`data`, with no style override (`self._style_override = None`). -/
def GroupedSubset.make (fresh : Nat) (data : Nat) : GroupedSubset :=
  { id := fresh, data := data, _style_override := none }

/-- `SubsetGroup._clear_overrides`: `for s in self.subsets:
s.clear_override_style()`, collecting the members' notifications in order. -/
def SubsetGroup._clear_overrides (g : SubsetGroup) : SubsetGroup × List Event :=
  let r := g.subsets.foldl
    (fun (acc : List GroupedSubset × List Event) s =>
      let c := GroupedSubset.clear_override_style s
      (acc.1 ++ [c.1], acc.2 ++ c.2))
    ([], [])
  ({ g with subsets := r.1 }, r.2)

/-- `SubsetGroup.broadcast(item)`: if the item is a `VisualAttributes`
instance, clear all member overrides and return; otherwise forward the item to
every member in order (`s.broadcast(item)`). -/
def SubsetGroup.broadcast (g : SubsetGroup) (item : BItem) :
    SubsetGroup × List Event :=
  match item with
  | BItem.styleObj _ => SubsetGroup._clear_overrides g
  | BItem.attr _ =>
      (g, g.subsets.foldl (fun evs s => evs ++ [Event.memberNotify s.id item]) [])

/-- A value assigned to a `SubsetGroup` attribute, tagged with the attribute
name it is assigned to (`other` covers every attribute outside the three
broadcast-triggering ones). -/
inductive AttrAssign where
  | subset_state (r : Nat)
  | label (l : Option String)
  | style (v : VisualAttributes)
  | other (name : String) (val : Nat)
deriving DecidableEq, Repr

/-- The attribute name an `AttrAssign` targets. -/
def AttrAssign.name : AttrAssign → String
  | AttrAssign.subset_state _ => "subset_state"
  | AttrAssign.label _ => "label"
  | AttrAssign.style _ => "style"
  | AttrAssign.other n _ => n

/-- `object.__setattr__(self, attr, value)`: plain slots are stored directly;
`style` is a data descriptor, so its property setter runs: `self._style =
value` followed by `self._clear_overrides()`. -/
def SubsetGroup.objectSetattr (g : SubsetGroup) (a : AttrAssign) :
    SubsetGroup × List Event :=
  match a with
  | AttrAssign.subset_state r => ({ g with subset_state := r }, [])
  | AttrAssign.label l => ({ g with label := l }, [])
  | AttrAssign.style v => SubsetGroup._clear_overrides { g with style := v }
  | AttrAssign.other n x => ({ g with extra := g.extra ++ [(n, x)] }, [])

/-- `SubsetGroup.__setattr__`: perform the plain assignment, then, if the
attribute is one of `subset_state`, `label`, `style`, broadcast the attribute
name to the members. -/
def SubsetGroup.setattr (g : SubsetGroup) (a : AttrAssign) :
    SubsetGroup × List Event :=
  let r1 := SubsetGroup.objectSetattr g a
  if a.name = "subset_state" ∨ a.name = "label" ∨ a.name = "style" then
    let r2 := SubsetGroup.broadcast r1.1 (BItem.attr a.name)
    (r2.1, r1.2 ++ r2.2)
  else r1

/-- `SubsetGroup._add_data(data)`: create a fresh member bound to `data`, call
`data.add_subset(s)`, then append the member to `self.subsets`. -/
def SubsetGroup._add_data (g : SubsetGroup) (fresh : Nat) (data : Nat) :
    SubsetGroup × List Event :=
  let s := GroupedSubset.make fresh data
  ({ g with subsets := g.subsets ++ [s] },
   [Event.addSubsetCall data s.id, Event.append s])

/-- Python `list.remove(value)`: drop the first element `x` with
`x == value`; for `GroupedSubset`s `==` is identity (`GroupedSubset.beq`). -/
def listRemove (xs : List GroupedSubset) (m : GroupedSubset) :
    List GroupedSubset :=
  match xs with
  | [] => []
  | x :: rest => if GroupedSubset.beq x m then rest else x :: listRemove rest m

/-- `SubsetGroup._remove_data(data)`: iterate over a snapshot
`list(self.subsets)` and `self.subsets.remove(s)` each member `s` with
`s.data is data`. -/
def SubsetGroup._remove_data (g : SubsetGroup) (data : Nat) : SubsetGroup :=
  { g with
    subsets := g.subsets.foldl
      (fun cur s => if s.data = data then listRemove cur s else cur)
      g.subsets }

/-- `SubsetGroup.register(data)` on a data collection: first loop — for each
dataset `d`, construct `GroupedSubset(d, self)` and append it to
`self.subsets`; second loop — `for d, s in zip(data, self.subsets):
d.add_subset(s)`.  `base` numbers the freshly allocated members.  The hub
subscription (`register_to_hub`) touches no group state and is outside the
modelled trace. -/
def SubsetGroup.register (g : SubsetGroup) (base : Nat) (datasets : List Nat) :
    SubsetGroup × List Event :=
  let r := datasets.foldl
    (fun (acc : SubsetGroup × List Event × Nat) d =>
      let s := GroupedSubset.make acc.2.2 d
      ({ acc.1 with subsets := acc.1.subsets ++ [s] },
       acc.2.1 ++ [Event.append s], acc.2.2 + 1))
    (g, [], base)
  (r.1, r.2.1 ++ (datasets.zip r.1.subsets).map
    (fun p => Event.addSubsetCall p.1 p.2.id))

/-- The heap of mutable `SubsetState` objects: cell `r < next` is allocated
and holds the abstract content `val r`.  (The `SubsetState` class lives in
`glue.core.subset`, outside this module; only allocation, copying and
mutation of its content matter here.) -/
structure World where
  next : Nat
  val : Nat → Nat

/-- Modelled from the spec: `SubsetState.copy` (from `glue.core.subset`, not
part of this module) deep-copies a selection state — it allocates a fresh
state object with the same content, sharing nothing with the original. -/
def World.copyState (w : World) (r : Nat) : World × Nat :=
  ({ next := w.next + 1,
     val := fun x => if x = w.next then w.val r else w.val x }, w.next)

/-- Mutating the content of an existing `SubsetState` object in place. -/
def World.mutate (w : World) (r : Nat) (v : Nat) : World :=
  { w with val := fun x => if x = r then v else w.val x }

/-- `SubsetGroup.paste(other_subset)`: `state = other_subset.subset_state.copy()`
then `self.subset_state = state` (the latter through `__setattr__`, so it
broadcasts). -/
def SubsetGroup.paste (w : World) (g : SubsetGroup) (otherState : Nat) :
    World × SubsetGroup × List Event :=
  let c := World.copyState w otherState
  let r := SubsetGroup.setattr g (AttrAssign.subset_state c.2)
  (c.1, r.1, r.2)

/-- Modelled from the spec: the `Pointer('group.subset_state')` descriptor
(from `glue.core.util`, not part of this module) — reads pass through to the
owning group. -/
def GroupedSubset.subset_state (g : SubsetGroup) : Nat :=
  g.subset_state

/-- Modelled from the spec: the `Pointer('group.label')` descriptor — reads
pass through to the owning group. -/
def GroupedSubset.label (g : SubsetGroup) : Option String :=
  g.label

/-- Modelled from the spec: writing a member's `subset_state` passes through
to the owning group (an ordinary attribute assignment on the group, hence
through the group's `__setattr__`). -/
def GroupedSubset.set_subset_state (g : SubsetGroup) (r : Nat) :
    SubsetGroup × List Event :=
  SubsetGroup.setattr g (AttrAssign.subset_state r)

/-- Modelled from the spec: writing a member's `label` passes through to the
owning group. -/
def GroupedSubset.set_label (g : SubsetGroup) (l : Option String) :
    SubsetGroup × List Event :=
  SubsetGroup.setattr g (AttrAssign.label l)

/-- Assigning a style override to the member at position `i` of the group's
list (the `GroupedSubset.style` setter, placed in its group context; an
out-of-range index changes nothing). -/
def SubsetGroup.memberSetStyle (g : SubsetGroup) (i : Nat) (v : VisualAttributes) :
    SubsetGroup :=
  { g with subsets := g.subsets.modify (fun s => GroupedSubset.set_style s v) i }

/-- Calling `clear_override_style` on the member at position `i` (state part
only). -/
def SubsetGroup.memberClear (g : SubsetGroup) (i : Nat) : SubsetGroup :=
  { g with
    subsets := g.subsets.modify (fun s => (GroupedSubset.clear_override_style s).1) i }

/-- One mutation of a group, for quantifying over arbitrary mutation
sequences: an attribute assignment, a dataset added or removed, a member-local
style assignment or override clear, or a style-object mutation notification. -/
inductive GOp where
  | set (a : AttrAssign)
  | addData (fresh : Nat) (data : Nat)
  | removeData (data : Nat)
  | memberSetStyle (i : Nat) (v : VisualAttributes)
  | memberClear (i : Nat)
  | styleMutated (v : VisualAttributes)
deriving DecidableEq, Repr

/-- Apply one mutation (state part). -/
def GOp.apply (g : SubsetGroup) : GOp → SubsetGroup
  | GOp.set a => (SubsetGroup.setattr g a).1
  | GOp.addData fresh d => (SubsetGroup._add_data g fresh d).1
  | GOp.removeData d => SubsetGroup._remove_data g d
  | GOp.memberSetStyle i v => SubsetGroup.memberSetStyle g i v
  | GOp.memberClear i => SubsetGroup.memberClear g i
  | GOp.styleMutated v => (SubsetGroup.broadcast g (BItem.styleObj v)).1

/-- Apply a sequence of mutations in order. -/
def GOp.applyAll (g : SubsetGroup) (ops : List GOp) : SubsetGroup :=
  ops.foldl GOp.apply g

/-! ## Characterization lemmas for the iteration loops -/

/-- The notifications emitted by `_clear_overrides` on a member list: one
`'style'` notification per member that actually had an override. -/
def clearEvs (ms : List GroupedSubset) : List Event :=
  (ms.filter (fun s => s._style_override.isSome)).map
    (fun s => Event.memberNotify s.id (BItem.attr "style"))

theorem clear_override_fst (s : GroupedSubset) :
    (GroupedSubset.clear_override_style s).1 = { s with _style_override := none } := by
  cases s with
  | mk i d o =>
    cases o <;> rfl

theorem clear_override_snd (s : GroupedSubset) :
    (GroupedSubset.clear_override_style s).2 =
      if s._style_override.isSome then
        [Event.memberNotify s.id (BItem.attr "style")]
      else [] := by
  cases s with
  | mk i d o =>
    cases o <;> rfl

theorem clearEvs_cons (s : GroupedSubset) (ms : List GroupedSubset) :
    clearEvs (s :: ms) =
      (if s._style_override.isSome then
        [Event.memberNotify s.id (BItem.attr "style")]
       else []) ++ clearEvs ms := by
  by_cases h : s._style_override.isSome <;>
    simp [clearEvs, List.filter_cons, h]

theorem foldl_notify_eq (ms : List GroupedSubset) (item : BItem) (init : List Event) :
    ms.foldl (fun evs s => evs ++ [Event.memberNotify s.id item]) init
      = init ++ ms.map (fun s => Event.memberNotify s.id item) := by
  induction ms generalizing init with
  | nil => simp
  | cons s rest ih => simp [List.foldl_cons, ih]

theorem foldl_clear_eq (ms : List GroupedSubset)
    (init : List GroupedSubset × List Event) :
    ms.foldl
      (fun (acc : List GroupedSubset × List Event) s =>
        let c := GroupedSubset.clear_override_style s
        (acc.1 ++ [c.1], acc.2 ++ c.2))
      init
      = (init.1 ++ ms.map (fun s => { s with _style_override := none }),
         init.2 ++ clearEvs ms) := by
  induction ms generalizing init with
  | nil => simp [clearEvs]
  | cons s rest ih =>
      rw [List.foldl_cons, ih]
      simp [clear_override_fst, clear_override_snd, clearEvs_cons]

theorem clear_overrides_spec (g : SubsetGroup) :
    SubsetGroup._clear_overrides g
      = ({ g with subsets := g.subsets.map (fun s => { s with _style_override := none }) },
         clearEvs g.subsets) := by
  simp [SubsetGroup._clear_overrides, foldl_clear_eq]

theorem broadcast_attr_spec (g : SubsetGroup) (n : String) :
    SubsetGroup.broadcast g (BItem.attr n)
      = (g, g.subsets.map (fun s => Event.memberNotify s.id (BItem.attr n))) := by
  simp [SubsetGroup.broadcast, foldl_notify_eq]

theorem setattr_subset_state_spec (g : SubsetGroup) (r : Nat) :
    SubsetGroup.setattr g (AttrAssign.subset_state r)
      = ({ g with subset_state := r },
         g.subsets.map (fun s => Event.memberNotify s.id (BItem.attr "subset_state"))) := by
  simp [SubsetGroup.setattr, SubsetGroup.objectSetattr, AttrAssign.name,
    broadcast_attr_spec]

theorem setattr_label_spec (g : SubsetGroup) (l : Option String) :
    SubsetGroup.setattr g (AttrAssign.label l)
      = ({ g with label := l },
         g.subsets.map (fun s => Event.memberNotify s.id (BItem.attr "label"))) := by
  simp [SubsetGroup.setattr, SubsetGroup.objectSetattr, AttrAssign.name,
    broadcast_attr_spec]

theorem setattr_style_spec (g : SubsetGroup) (v : VisualAttributes) :
    SubsetGroup.setattr g (AttrAssign.style v)
      = ({ g with
             style := v,
             subsets := g.subsets.map (fun s => { s with _style_override := none }) },
         clearEvs g.subsets
           ++ g.subsets.map (fun s => Event.memberNotify s.id (BItem.attr "style"))) := by
  simp only [SubsetGroup.setattr, SubsetGroup.objectSetattr, AttrAssign.name,
    clear_overrides_spec, broadcast_attr_spec]
  simp [List.map_map, Function.comp]

theorem setattr_other_spec (g : SubsetGroup) (name : String) (x : Nat)
    (h1 : name ≠ "subset_state") (h2 : name ≠ "label") (h3 : name ≠ "style") :
    SubsetGroup.setattr g (AttrAssign.other name x)
      = ({ g with extra := g.extra ++ [(name, x)] }, []) := by
  simp [SubsetGroup.setattr, SubsetGroup.objectSetattr, AttrAssign.name, h1, h2, h3]

/-- The members created by `register`'s first loop: one fresh `GroupedSubset`
per dataset, numbered from `base`. -/
def mkMembers (base : Nat) : List Nat → List GroupedSubset
  | [] => []
  | d :: ds => GroupedSubset.make base d :: mkMembers (base + 1) ds

theorem mkMembers_map_data (ds : List Nat) :
    ∀ base : Nat, (mkMembers base ds).map GroupedSubset.data = ds := by
  induction ds with
  | nil => intro base; rfl
  | cons d rest ih => intro base; simp [mkMembers, GroupedSubset.make, ih]

theorem mkMembers_length (ds : List Nat) :
    ∀ base : Nat, (mkMembers base ds).length = ds.length := by
  induction ds with
  | nil => intro base; rfl
  | cons d rest ih => intro base; simp [mkMembers, ih]

theorem register_loop_eq (ds : List Nat) :
    ∀ (g : SubsetGroup) (evs : List Event) (base : Nat),
    ds.foldl
      (fun (acc : SubsetGroup × List Event × Nat) d =>
        let s := GroupedSubset.make acc.2.2 d
        ({ acc.1 with subsets := acc.1.subsets ++ [s] },
         acc.2.1 ++ [Event.append s], acc.2.2 + 1))
      (g, evs, base)
      = ({ g with subsets := g.subsets ++ mkMembers base ds },
         evs ++ (mkMembers base ds).map Event.append, base + ds.length) := by
  induction ds with
  | nil => intro g evs base; simp [mkMembers]
  | cons d rest ih =>
      intro g evs base
      rw [List.foldl_cons]
      simp only []
      rw [ih]
      simp [mkMembers, Nat.add_comm, Nat.add_assoc, Nat.add_left_comm]

theorem register_spec (g : SubsetGroup) (base : Nat) (ds : List Nat) :
    SubsetGroup.register g base ds
      = ({ g with subsets := g.subsets ++ mkMembers base ds },
         (mkMembers base ds).map Event.append
           ++ (ds.zip (g.subsets ++ mkMembers base ds)).map
                (fun p => Event.addSubsetCall p.1 p.2.id)) := by
  simp [SubsetGroup.register, register_loop_eq]

theorem listRemove_append (X : List GroupedSubset) (s : GroupedSubset)
    (rest : List GroupedSubset) (h : s.id ∉ X.map GroupedSubset.id) :
    listRemove (X ++ s :: rest) s = X ++ rest := by
  induction X with
  | nil => simp [listRemove, GroupedSubset.beq]
  | cons x xs ih =>
      simp only [List.map_cons, List.mem_cons, not_or] at h
      have hx : (GroupedSubset.beq x s) = false := by
        simp [GroupedSubset.beq]
        intro hc
        exact h.1 hc.symm
      simp only [List.cons_append, listRemove, hx, Bool.false_eq_true, if_false]
      exact congrArg (List.cons x) (ih h.2)

theorem remove_fold_eq (d : Nat) (todo : List GroupedSubset) :
    ∀ X : List GroupedSubset,
    ((X ++ todo).map GroupedSubset.id).Nodup →
    todo.foldl (fun cur s => if s.data = d then listRemove cur s else cur)
        (X ++ todo)
      = X ++ todo.filter (fun s => s.data != d) := by
  induction todo with
  | nil => intro X h; simp
  | cons s rest ih =>
      intro X h
      have hmap : ((X ++ s :: rest).map GroupedSubset.id)
          = X.map GroupedSubset.id ++ (s.id :: rest.map GroupedSubset.id) := by
        simp
      rw [hmap] at h
      rcases List.nodup_append.1 h with ⟨hX, hsr, hdisj⟩
      have hs_notin : s.id ∉ X.map GroupedSubset.id := by
        intro hc
        exact hdisj hc (List.mem_cons_self _ _)
      rw [List.foldl_cons]
      by_cases hd : s.data = d
      · rw [if_pos hd, listRemove_append X s rest hs_notin]
        have hnodup' : ((X ++ rest).map GroupedSubset.id).Nodup := by
          rw [List.map_append]
          refine List.nodup_append.2 ⟨hX, (List.nodup_cons.1 hsr).2, ?_⟩
          intro a ha hb
          exact hdisj ha (List.mem_cons_of_mem _ hb)
        rw [ih X hnodup']
        have : (s.data != d) = false := by simp [hd]
        simp [List.filter_cons, this]
      · rw [if_neg hd]
        have hassoc : X ++ s :: rest = (X ++ [s]) ++ rest := by simp
        have hnodup' : (((X ++ [s]) ++ rest).map GroupedSubset.id).Nodup := by
          rw [← hassoc, hmap]
          exact h
        rw [hassoc, ih (X ++ [s]) hnodup']
        have : (s.data != d) = true := by simp [hd]
        simp [List.filter_cons, this]


theorem zip_mkMembers_data (ds : List Nat) :
    ∀ base : Nat,
    (ds.zip (mkMembers base ds)).map (fun p => p.2.data)
      = (ds.zip (mkMembers base ds)).map Prod.fst := by
  induction ds with
  | nil => intro base; rfl
  | cons d rest ih =>
      intro base
      simp [mkMembers, GroupedSubset.make, ih]

/-! ## The claims -/

/-- C1: a member's `subset_state` and `label` reads delegate to the owning
group after any sequence of group mutations, and writes through the member
update the group's value — delegation, no duplicated state. -/
theorem grouped_subset_delegation (g0 : SubsetGroup) (ops : List GOp)
    (r : Nat) (l : Option String) :
    GroupedSubset.subset_state (GOp.applyAll g0 ops)
        = (GOp.applyAll g0 ops).subset_state ∧
    GroupedSubset.label (GOp.applyAll g0 ops) = (GOp.applyAll g0 ops).label ∧
    ((GroupedSubset.set_subset_state (GOp.applyAll g0 ops) r).1).subset_state = r ∧
    ((GroupedSubset.set_label (GOp.applyAll g0 ops) l).1).label = l := by
  refine ⟨rfl, rfl, ?_, ?_⟩
  · rw [GroupedSubset.set_subset_state, setattr_subset_state_spec]
  · rw [GroupedSubset.set_label, setattr_label_spec]

/-- C2: reassigning the group's `style` attribute clears every member's local
override; immediately afterwards each member's effective style is the new
shared style. -/
theorem style_reassign_clears_overrides (g : SubsetGroup) (v : VisualAttributes)
    (_h : g.subsets ≠ []) :
    ((SubsetGroup.setattr g (AttrAssign.style v)).1).style = v ∧
    ((SubsetGroup.setattr g (AttrAssign.style v)).1).subsets
      = g.subsets.map (fun s => { s with _style_override := none }) ∧
    (((SubsetGroup.setattr g (AttrAssign.style v)).1).subsets.all
      (fun s =>
        GroupedSubset.style ((SubsetGroup.setattr g (AttrAssign.style v)).1) s
          == v)) = true := by
  rw [setattr_style_spec]
  refine ⟨rfl, rfl, ?_⟩
  rw [List.all_eq_true]
  intro x hx
  obtain ⟨s, _, rfl⟩ := List.mem_map.1 hx
  simp [GroupedSubset.style]

/-- A concrete two-member group used to instantiate hypotheses. -/
def exG2 : SubsetGroup :=
  { subsets := [⟨0, 0, some ⟨3⟩⟩, ⟨1, 1, none⟩],
    subset_state := 0, label := some "A", style := ⟨1⟩, extra := [] }

theorem style_reassign_clears_overrides_witness :
    exG2.subsets ≠ [] ∧
    (((SubsetGroup.setattr exG2 (AttrAssign.style ⟨7⟩)).1).style = (⟨7⟩ : VisualAttributes) ∧
     ((SubsetGroup.setattr exG2 (AttrAssign.style ⟨7⟩)).1).subsets
       = exG2.subsets.map (fun s => { s with _style_override := none }) ∧
     (((SubsetGroup.setattr exG2 (AttrAssign.style ⟨7⟩)).1).subsets.all
       (fun s =>
         GroupedSubset.style ((SubsetGroup.setattr exG2 (AttrAssign.style ⟨7⟩)).1) s
           == (⟨7⟩ : VisualAttributes))) = true) :=
  ⟨by decide, style_reassign_clears_overrides exG2 ⟨7⟩ (by decide)⟩

/-- C3: assigning `subset_state`, `label` or `style` broadcasts that attribute
to every current member (one forwarded notification per member); assigning any
other attribute emits nothing; and broadcasting a `VisualAttributes` item
clears every member override and returns early, emitting only the override
clears and never forwarding the item itself. -/
theorem setattr_broadcast_fanout (g : SubsetGroup) (r : Nat) (l : Option String)
    (v : VisualAttributes) (name : String) (x : Nat)
    (h1 : name ≠ "subset_state") (h2 : name ≠ "label") (h3 : name ≠ "style") :
    (SubsetGroup.setattr g (AttrAssign.subset_state r)).2
        = g.subsets.map (fun s => Event.memberNotify s.id (BItem.attr "subset_state")) ∧
    (SubsetGroup.setattr g (AttrAssign.label l)).2
        = g.subsets.map (fun s => Event.memberNotify s.id (BItem.attr "label")) ∧
    (SubsetGroup.setattr g (AttrAssign.style v)).2
        = clearEvs g.subsets
          ++ g.subsets.map (fun s => Event.memberNotify s.id (BItem.attr "style")) ∧
    SubsetGroup.setattr g (AttrAssign.other name x)
        = ({ g with extra := g.extra ++ [(name, x)] }, []) ∧
    SubsetGroup.broadcast g (BItem.styleObj v)
        = ({ g with
               subsets := g.subsets.map (fun s => { s with _style_override := none }) },
           clearEvs g.subsets) := by
  refine ⟨?_, ?_, ?_, setattr_other_spec g name x h1 h2 h3, ?_⟩
  · rw [setattr_subset_state_spec]
  · rw [setattr_label_spec]
  · rw [setattr_style_spec]
  · exact clear_overrides_spec g

/-- A concrete group for the C3 witness. -/
def exG3 : SubsetGroup :=
  { subsets := [⟨2, 4, some ⟨6⟩⟩, ⟨3, 5, none⟩],
    subset_state := 1, label := none, style := ⟨2⟩, extra := [] }

theorem setattr_broadcast_fanout_witness :
    ("hub" : String) ≠ "subset_state" ∧ ("hub" : String) ≠ "label" ∧
    ("hub" : String) ≠ "style" ∧
    ((SubsetGroup.setattr exG3 (AttrAssign.subset_state 5)).2
        = exG3.subsets.map (fun s => Event.memberNotify s.id (BItem.attr "subset_state")) ∧
     (SubsetGroup.setattr exG3 (AttrAssign.label (some "B"))).2
        = exG3.subsets.map (fun s => Event.memberNotify s.id (BItem.attr "label")) ∧
     (SubsetGroup.setattr exG3 (AttrAssign.style ⟨9⟩)).2
        = clearEvs exG3.subsets
          ++ exG3.subsets.map (fun s => Event.memberNotify s.id (BItem.attr "style")) ∧
     SubsetGroup.setattr exG3 (AttrAssign.other "hub" 0)
        = ({ exG3 with extra := exG3.extra ++ [("hub", 0)] }, []) ∧
     SubsetGroup.broadcast exG3 (BItem.styleObj ⟨9⟩)
        = ({ exG3 with
               subsets := exG3.subsets.map (fun s => { s with _style_override := none }) },
           clearEvs exG3.subsets)) :=
  ⟨by decide, by decide, by decide,
   setattr_broadcast_fanout exG3 5 (some "B") ⟨9⟩ "hub" 0
     (by decide) (by decide) (by decide)⟩

/-- C4: handling a dataset-removed notification removes exactly the members
bound to that dataset, leaving all other members in their original relative
order (member identities are unique, as Python object identities are). -/
theorem remove_data_removes_exactly_bound (g : SubsetGroup) (d : Nat)
    (h : (g.subsets.map GroupedSubset.id).Nodup) :
    SubsetGroup._remove_data g d
      = { g with subsets := g.subsets.filter (fun s => s.data != d) } := by
  have hfold := remove_fold_eq d g.subsets [] (by simpa using h)
  simp only [List.nil_append] at hfold
  unfold SubsetGroup._remove_data
  rw [hfold]

/-- A concrete group for the C4 witness: members on datasets 4, 5 and 4. -/
def exG4 : SubsetGroup :=
  { subsets := [⟨0, 4, none⟩, ⟨1, 5, some ⟨3⟩⟩, ⟨2, 4, none⟩],
    subset_state := 0, label := some "A", style := ⟨1⟩, extra := [] }

theorem remove_data_removes_exactly_bound_witness :
    (exG4.subsets.map GroupedSubset.id).Nodup ∧
    SubsetGroup._remove_data exG4 4
      = { exG4 with subsets := exG4.subsets.filter (fun s => s.data != 4) } :=
  ⟨by decide, remove_data_removes_exactly_bound exG4 4 (by decide)⟩

/-- C5: handling a dataset-added notification creates exactly one new member
bound to the dataset, registers it with the dataset via `add_subset`, and
appends it at the end of the member list; existing members and the shared
state, label and style are untouched. -/
theorem add_data_appends_one_member (g : SubsetGroup) (fresh d : Nat) :
    ((SubsetGroup._add_data g fresh d).1).subsets
        = g.subsets ++ [GroupedSubset.make fresh d] ∧
    (GroupedSubset.make fresh d).data = d ∧
    (GroupedSubset.make fresh d)._style_override = none ∧
    ((SubsetGroup._add_data g fresh d).1).subset_state = g.subset_state ∧
    ((SubsetGroup._add_data g fresh d).1).label = g.label ∧
    ((SubsetGroup._add_data g fresh d).1).style = g.style ∧
    (SubsetGroup._add_data g fresh d).2
        = [Event.addSubsetCall d fresh, Event.append (GroupedSubset.make fresh d)] :=
  ⟨rfl, rfl, rfl, rfl, rfl, rfl, rfl⟩

/-- C6: a member's style resolves to its local override when set and to the
group's shared style otherwise; assigning a member's style installs the local
override and leaves the group's shared style unchanged. -/
theorem member_style_override_resolution (g : SubsetGroup) (s : GroupedSubset)
    (v o : VisualAttributes) (i : Nat) :
    GroupedSubset.style g { s with _style_override := some o } = o ∧
    GroupedSubset.style g { s with _style_override := none } = g.style ∧
    GroupedSubset.set_style s v = { s with _style_override := some v } ∧
    GroupedSubset.style g (GroupedSubset.set_style s v) = v ∧
    (SubsetGroup.memberSetStyle g i v).style = g.style :=
  ⟨rfl, rfl, rfl, rfl, rfl⟩

/-- C7: `clear_override_style` always leaves the override unset, and emits a
`'style'` notification exactly when an override was set; without an override
it is a complete no-op, so a second consecutive call does nothing. -/
theorem clear_override_style_iff (s : GroupedSubset) (o : VisualAttributes) :
    ((GroupedSubset.clear_override_style s).1)._style_override = none ∧
    ((GroupedSubset.clear_override_style s).2 = [] ↔ s._style_override = none) ∧
    GroupedSubset.clear_override_style { s with _style_override := none }
        = ({ s with _style_override := none }, []) ∧
    GroupedSubset.clear_override_style { s with _style_override := some o }
        = ({ s with _style_override := none },
           [Event.memberNotify s.id (BItem.attr "style")]) ∧
    GroupedSubset.clear_override_style (GroupedSubset.clear_override_style s).1
        = ((GroupedSubset.clear_override_style s).1, []) := by
  cases s with
  | mk i d ov => cases ov <;> simp [GroupedSubset.clear_override_style]

/-- C9: member equality is object identity — a member equals itself, and two
members are equal exactly when they are the same instance (same identity),
whatever their other fields are. -/
theorem grouped_subset_eq_identity (a b : GroupedSubset) :
    GroupedSubset.beq a a = true ∧
    (GroupedSubset.beq a b = true ↔ a.id = b.id) := by
  simp [GroupedSubset.beq]

/-- C8: `paste` installs a fresh deep copy of the other subset's selection
state as the group's shared state — the new state object is distinct from the
source, carries the same content, later in-place mutation of the source does
not affect it — and the installation notifies every member. -/
theorem paste_deep_copies_state (w : World) (g : SubsetGroup) (other v' : Nat)
    (h : other < w.next) :
    ((SubsetGroup.paste w g other).2.1).subset_state = w.next ∧
    w.next ≠ other ∧
    ((SubsetGroup.paste w g other).1).val w.next = w.val other ∧
    (World.mutate (SubsetGroup.paste w g other).1 other v').val w.next
        = w.val other ∧
    (SubsetGroup.paste w g other).2.2
        = g.subsets.map (fun s => Event.memberNotify s.id (BItem.attr "subset_state")) := by
  have hne : w.next ≠ other := Nat.ne_of_gt h
  refine ⟨?_, hne, ?_, ?_, ?_⟩
  · show (SubsetGroup.setattr g (AttrAssign.subset_state (World.copyState w other).2)).1.subset_state
        = w.next
    rw [setattr_subset_state_spec]
    rfl
  · show (World.copyState w other).1.val w.next = w.val other
    simp [World.copyState]
  · show (World.mutate (World.copyState w other).1 other v').val w.next = w.val other
    simp [World.mutate, World.copyState, hne]
  · show (SubsetGroup.setattr g (AttrAssign.subset_state (World.copyState w other).2)).2
        = g.subsets.map (fun s => Event.memberNotify s.id (BItem.attr "subset_state"))
    rw [setattr_subset_state_spec]

/-- A concrete heap and group for the C8 witness: one allocated state cell
holding 5, one member. -/
def exW8 : World := { next := 1, val := fun _ => 5 }

/-- The group used in the C8 witness. -/
def exG8 : SubsetGroup :=
  { subsets := [⟨0, 0, none⟩],
    subset_state := 0, label := some "A", style := ⟨1⟩, extra := [] }

theorem paste_deep_copies_state_witness :
    0 < exW8.next ∧
    (((SubsetGroup.paste exW8 exG8 0).2.1).subset_state = exW8.next ∧
     exW8.next ≠ 0 ∧
     ((SubsetGroup.paste exW8 exG8 0).1).val exW8.next = exW8.val 0 ∧
     (World.mutate (SubsetGroup.paste exW8 exG8 0).1 0 9).val exW8.next
        = exW8.val 0 ∧
     (SubsetGroup.paste exW8 exG8 0).2.2
        = exG8.subsets.map (fun s => Event.memberNotify s.id (BItem.attr "subset_state"))) :=
  ⟨by decide, paste_deep_copies_state exW8 exG8 0 9 (by decide)⟩

/-- C10: `register` on a freshly created (empty) group and a collection of
datasets first creates and appends one member per dataset — the i-th member
bound to the i-th dataset — and only afterwards attaches the members to their
datasets via `add_subset`, so every `add_subset` call runs with the member
list fully populated and each call pairs a dataset with the member bound to
it. -/
theorem register_appends_before_attach (g : SubsetGroup) (base : Nat)
    (ds : List Nat) (h : g.subsets = []) :
    ((SubsetGroup.register g base ds).1).subsets = mkMembers base ds ∧
    (mkMembers base ds).map GroupedSubset.data = ds ∧
    (mkMembers base ds).length = ds.length ∧
    (SubsetGroup.register g base ds).2
      = (mkMembers base ds).map Event.append
        ++ (ds.zip (mkMembers base ds)).map
             (fun p => Event.addSubsetCall p.1 p.2.id) ∧
    (ds.zip (mkMembers base ds)).map (fun p => p.2.data)
      = (ds.zip (mkMembers base ds)).map Prod.fst := by
  rw [register_spec g base ds]
  refine ⟨?_, mkMembers_map_data ds base, mkMembers_length ds base, ?_,
    zip_mkMembers_data ds base⟩
  · simp [h]
  · simp [h]

/-- An empty group for the C10 witness. -/
def exG10 : SubsetGroup :=
  { subsets := [], subset_state := 0, label := none, style := ⟨1⟩, extra := [] }

theorem register_appends_before_attach_witness :
    exG10.subsets = [] ∧
    (((SubsetGroup.register exG10 10 [4, 5]).1).subsets = mkMembers 10 [4, 5] ∧
     (mkMembers 10 [4, 5]).map GroupedSubset.data = [4, 5] ∧
     (mkMembers 10 [4, 5]).length = ([4, 5] : List Nat).length ∧
     (SubsetGroup.register exG10 10 [4, 5]).2
       = (mkMembers 10 [4, 5]).map Event.append
         ++ (([4, 5] : List Nat).zip (mkMembers 10 [4, 5])).map
              (fun p => Event.addSubsetCall p.1 p.2.id) ∧
     (([4, 5] : List Nat).zip (mkMembers 10 [4, 5])).map (fun p => p.2.data)
       = (([4, 5] : List Nat).zip (mkMembers 10 [4, 5])).map Prod.fst) :=
  ⟨by decide, register_appends_before_attach exG10 10 [4, 5] (by decide)⟩
